import Mathlib

/-!
Shallow embedding of the real-time market-data layer of the trading
terminal (`src/services/firebaseService.ts`): the `throttle`/`debounce`
rate limiters, the change filters inside `subscribeToPrice` /
`subscribeToOHLC`, the snapshot ingest transform (sort ascending by
timestamp, keep the last 500), the cache fast path and timeout branch of
`getHistoricalOHLC`, and the listener/cache bookkeeping of the
`FirebaseService` singleton.

Numbers: JS `number` prices are modelled as `ℚ`; epoch timestamps and
timer instants as `Nat`.  `Date.now()` differences only ever appear in
comparisons `now - last < positiveConstant`, where truncated `Nat`
subtraction agrees with JS signed subtraction whenever `last ≤ now`, and
both sides are `True` when `last > now`, so the embedding is faithful.

Timers: `setTimeout(g, d)` issued at instant `s` runs `g` strictly after
the instant `s` (even for `d = 0`) and no earlier than `s + d`; we model
"the timer has run by the time an event at instant `t` is processed" as
`s + d ≤ t ∧ s < t`.
-/

/-- Candle record, from `OHLCData` in `src/types/index.ts`. -/
structure OHLCData where
  timestamp : Nat
  datetime : String
  open_ : ℚ
  high : ℚ
  low : ℚ
  close : ℚ
  volume : ℚ
  deriving DecidableEq

/-- Price tick record, from `FirebasePriceData` in `src/types/index.ts`. -/
structure FirebasePriceData where
  price : ℚ
  timestamp : Nat
  datetime : String
  datetime_iso : String
  change : ℚ
  timezone : String
  deriving DecidableEq

/-- Has a timer scheduled at instant `s` with delay `d` already fired by the
time an event at instant `t` is processed?  JS timers never run within the
instant that scheduled them, hence the strict `s < t`. -/
def timerFired (s d t : Nat) : Bool :=
  decide (s + d ≤ t ∧ s < t)

/-! ### throttle (firebaseService.ts lines 17–32)

`let inThrottle` starts falsy; on a call with `!inThrottle` the wrapped
function runs immediately, `inThrottle` is set, and a reset timer
`setTimeout(() => inThrottle = false, limit)` is scheduled; a call with
`inThrottle` set returns the previous result without invoking anything.
The closure stores no pending arguments.  State: the flag plus the
instant at which the pending reset timer was scheduled. -/

structure ThrottleState where
  inThrottle : Bool
  resetAt : Option Nat
  deriving DecidableEq

def throttleInit : ThrottleState := ⟨false, none⟩

/-- Event-loop bookkeeping: run the reset timer if it is due at `t`. -/
def throttleFireDue (limit : Nat) (st : ThrottleState) (t : Nat) : ThrottleState :=
  match st.resetAt with
  | some s => if timerFired s limit t then ⟨false, none⟩ else st
  | none => st

/-- One call of the throttled wrapper at instant `t` with argument `a`:
returns the new state and the argument passed through to the wrapped
function, if any. -/
def throttleCall (limit : Nat) (st : ThrottleState) (t : Nat) (a : α) :
    ThrottleState × Option α :=
  let st1 := throttleFireDue limit st t
  if st1.inThrottle then (st1, none)
  else (⟨true, some t⟩, some a)

/-- Run the throttled wrapper over a time-stamped call trace from a given
state, collecting every argument actually passed through. -/
def throttleRunSt (limit : Nat) (st : ThrottleState) :
    List (Nat × α) → ThrottleState × List α
  | [] => (st, [])
  | (t, a) :: rest =>
      let c := throttleCall limit st t a
      let r := throttleRunSt limit c.1 rest
      (r.1, c.2.toList ++ r.2)

def throttleRun (limit : Nat) (evts : List (Nat × α)) : List α :=
  (throttleRunSt limit throttleInit evts).2

/-! ### debounce (firebaseService.ts lines 5–15)

On each call the pending timer (if any) is cleared and a fresh
`setTimeout(() => func.apply(this, args), wait)` is installed; if the
pending timer had already run, `clearTimeout` is a no-op.  State: the
pending timer's scheduling instant and the captured arguments. -/

/-- One call of the debounced wrapper at instant `t`: if the pending timer
already fired (strictly before `t`), its captured arguments were invoked;
either way the call installs a fresh timer capturing `a`. -/
def debounceCall (wait : Nat) (st : Option (Nat × α)) (t : Nat) (a : α) :
    Option (Nat × α) × Option α :=
  match st with
  | some (s, b) =>
      if timerFired s wait t then (some (t, a), some b) else (some (t, a), none)
  | none => (some (t, a), none)

def debounceRunSt (wait : Nat) (st : Option (Nat × α)) :
    List (Nat × α) → Option (Nat × α) × List α
  | [] => (st, [])
  | (t, a) :: rest =>
      let c := debounceCall wait st t a
      let r := debounceRunSt wait c.1 rest
      (r.1, c.2.toList ++ r.2)

/-- Run the debounced wrapper over a call trace: arguments invoked during
the trace, and the timer still pending at the end. -/
def debounceRun (wait : Nat) (evts : List (Nat × α)) : List α × Option (Nat × α) :=
  let r := debounceRunSt wait none evts
  (r.2, r.1)

/-! ### FirebaseService tuning constants (firebaseService.ts lines 42–45) -/

def CACHE_DURATION : Nat := 2000
def PRICE_UPDATE_THROTTLE : Nat := 500
def OHLC_UPDATE_DEBOUNCE : Nat := 1000
def MIN_PRICE_CHANGE : ℚ := 1 / 1000

/-! ### Price change filter (firebaseService.ts lines 56–74)

Body of the `throttle`-wrapped callback inside `subscribeToPrice`: skip
when a cached entry exists, the last delivery is within `CACHE_DURATION`,
and the absolute price change is below `MIN_PRICE_CHANGE`; otherwise
update `priceCache` / `lastPriceUpdate` and invoke the consumer callback.
Per-asset slices of the two `Map`s are modelled as `Option` fields
(`none` = key absent, `this.lastPriceUpdate.get(sym) || 0` = `getD 0`). -/

structure PriceChannelState where
  priceCache : Option FirebasePriceData
  lastPriceUpdate : Option Nat
  deriving DecidableEq

def priceCallbackBody (st : PriceChannelState) (now : Nat) (data : FirebasePriceData) :
    PriceChannelState × Option FirebasePriceData :=
  let lastUpdate := st.lastPriceUpdate.getD 0
  let skip :=
    match st.priceCache with
    | some cached =>
        decide (now - lastUpdate < CACHE_DURATION) &&
        decide (|data.price - cached.price| < MIN_PRICE_CHANGE)
    | none => false
  if skip then (st, none)
  else (⟨some data, some now⟩, some data)

/-! ### Candle change filter (firebaseService.ts lines 104–130)

Body of the `debounce`-wrapped callback inside `subscribeToOHLC`: skip if
the last delivery was less than 1000 ms ago; skip if a cached series
exists with the same length and the same last `(timestamp, close)` pair
(JS optional chaining `lastCached?.timestamp` on an empty array yields
`undefined`, modelled by `Option.map` over `getLast?`); otherwise update
`ohlcCache` / `lastOHLCUpdate` and invoke the consumer callback. -/

structure OHLCChannelState where
  ohlcCache : Option (List OHLCData)
  lastOHLCUpdate : Option Nat
  deriving DecidableEq

def ohlcCallbackBody (st : OHLCChannelState) (now : Nat) (data : List OHLCData) :
    OHLCChannelState × Option (List OHLCData) :=
  let lastUpdate := st.lastOHLCUpdate.getD 0
  if now - lastUpdate < 1000 then (st, none)
  else
    let contentSkip :=
      match st.ohlcCache with
      | some cached =>
          decide (cached.length = data.length) &&
          (decide (cached.getLast?.map OHLCData.timestamp =
                   data.getLast?.map OHLCData.timestamp) &&
           decide (cached.getLast?.map OHLCData.close =
                   data.getLast?.map OHLCData.close))
      | none => false
    if contentSkip then (st, none)
    else (⟨some data, some now⟩, some data)

/-! ### Snapshot ingest transform (firebaseService.ts lines 136–139)

`Object.keys(data).map(key => data[key]).sort((a, b) => a.timestamp -
b.timestamp).slice(-500)`: the keyed collection's values (as a list),
sorted ascending by timestamp (JS `Array.prototype.sort` is stable, as is
`List.mergeSort`), keeping only the last 500.  `slice(-n)` is the JS
negative-index slice: for `n = 0` it is `slice(0)`, the whole array. -/

def tsLEb (a b : OHLCData) : Bool := decide (a.timestamp ≤ b.timestamp)

def sortByTimestamp (l : List OHLCData) : List OHLCData := l.mergeSort tsLEb

def sliceNeg (n : Nat) (l : List α) : List α :=
  if n = 0 then l else l.drop (l.length - n)

/-- Last `n` elements of a list (what "the last `n` entries" denotes). -/
def lastN (n : Nat) (l : List α) : List α := l.drop (l.length - n)

def ohlcSnapshotTransform (raw : List OHLCData) : List OHLCData :=
  sliceNeg 500 (sortByTimestamp raw)

/-! ### Historical fetch, synchronous cache path (firebaseService.ts lines 162–166)

`if (cached && cached.length >= limit) return cached.slice(-limit);`
otherwise the code falls through to the asynchronous one-time read.  An
array is always truthy in JS (even when empty), so the guard is just the
length test. -/

inductive HistoryResult where
  | fromCache (data : List OHLCData)
  | feedRead
  deriving DecidableEq

/-- Cache-first branch of `getHistoricalOHLC`: result of the check plus
the (untouched) cache after it. -/
def getHistoricalOHLC_sync (cache : Option (List OHLCData)) (limit : Nat) :
    Option (List OHLCData) × HistoryResult :=
  match cache with
  | some cached =>
      if limit ≤ cached.length then (some cached, .fromCache (sliceNeg limit cached))
      else (some cached, .feedRead)
  | none => (none, .feedRead)

/-! ### Historical fetch, one-time read with timeout (firebaseService.ts lines 168–193)

A 5000 ms `setTimeout` rejects the promise with
`'Historical OHLC fetch timeout'`; the `onValue(..., { onlyOnce: true })`
callback clears the timeout, detaches itself (onlyOnce) and resolves.
The timeout branch contains no `off()` call, so it does not detach the
listener.  A promise settles at most once: a later `resolve`/`reject`
leaves the first outcome in place. -/

inductive FetchOutcome where
  | resolved (data : List OHLCData)
  | timedOut
  deriving DecidableEq

structure FetchState where
  listenerAttached : Bool
  timeoutPending : Bool
  outcome : Option FetchOutcome
  deriving DecidableEq

def fetchInit : FetchState := ⟨true, true, none⟩

/-- Timeout callback: runs only while the timer is still pending; rejects
the promise (if unsettled) and touches nothing else. -/
def fetchTimeoutFires (s : FetchState) : FetchState :=
  if s.timeoutPending then
    { s with timeoutPending := false, outcome := some (s.outcome.getD .timedOut) }
  else s

/-- Snapshot callback of the one-time read: clears the timeout, detaches
itself (onlyOnce), and resolves with the transformed data (`[]` when the
snapshot value is null). -/
def fetchSnapshotArrives (s : FetchState) (limit : Nat) (raw : Option (List OHLCData)) :
    FetchState :=
  if s.listenerAttached then
    { listenerAttached := false, timeoutPending := false,
      outcome := some (s.outcome.getD (.resolved
        (match raw with
         | some d => sliceNeg limit (sortByTimestamp d)
         | none => []))) }
  else s

/-! ### Listener bookkeeping of the service (firebaseService.ts lines 34–39, 76–93, 132–155)

`subscribeToPrice` / `subscribeToOHLC` each call `onValue(ref, ...)`
unconditionally — a fresh feed-side registration every time — and then
`this.listeners.set(path, ref)`, overwriting the map entry.  Neither
checks whether a listener for the path is already open, and neither calls
`off` before registering.  The returned unsubscribe closure calls
`off(ref)` (detaching every registration at that path) and deletes the
map/cache entries.  Feed-side registrations are modelled as a list of
`(path, registration id)` pairs; the `Map` fields as association lists. -/

def mapSet (m : List (String × β)) (k : String) (v : β) : List (String × β) :=
  m.filter (fun p => p.1 ≠ k) ++ [(k, v)]

def mapDelete (m : List (String × β)) (k : String) : List (String × β) :=
  m.filter (fun p => p.1 ≠ k)

def pricePath (sym : String) : String := "/" ++ sym.toLower ++ "/current_price"

def ohlcPath (sym : String) : String := "/" ++ sym.toLower ++ "/ohlc"

structure ServiceState where
  activeListeners : List (String × Nat)
  listenersMap : List (String × String)
  priceCache : List (String × FirebasePriceData)
  lastPriceUpdate : List (String × Nat)
  ohlcCache : List (String × List OHLCData)
  lastOHLCUpdate : List (String × Nat)
  nextRegId : Nat
  deriving DecidableEq

def serviceInit : ServiceState := ⟨[], [], [], [], [], [], 0⟩

/-- Registration effect of `subscribeToPrice assetSymbol`: one fresh
`onValue` registration on the price path, plus `listeners.set(path, ref)`. -/
def subscribeToPrice (s : ServiceState) (assetSymbol : String) : ServiceState :=
  let path := pricePath assetSymbol
  { s with activeListeners := s.activeListeners ++ [(path, s.nextRegId)],
           listenersMap := mapSet s.listenersMap path path,
           nextRegId := s.nextRegId + 1 }

/-- Unsubscribe closure returned by `subscribeToPrice`: `off(priceRef)`
detaches every registration at the path; the map and cache entries for the
key are deleted. -/
def unsubscribePrice (s : ServiceState) (assetSymbol : String) : ServiceState :=
  let path := pricePath assetSymbol
  { s with activeListeners := s.activeListeners.filter (fun p => p.1 ≠ path),
           listenersMap := mapDelete s.listenersMap path,
           priceCache := mapDelete s.priceCache assetSymbol,
           lastPriceUpdate := mapDelete s.lastPriceUpdate assetSymbol }

/-- Registration effect of `subscribeToOHLC assetSymbol` (same shape as the
price channel, on the OHLC path). -/
def subscribeToOHLC (s : ServiceState) (assetSymbol : String) : ServiceState :=
  let path := ohlcPath assetSymbol
  { s with activeListeners := s.activeListeners ++ [(path, s.nextRegId)],
           listenersMap := mapSet s.listenersMap path path,
           nextRegId := s.nextRegId + 1 }

/-- Per-asset branch of `clearCache` (firebaseService.ts lines 197–209). -/
def clearCache (s : ServiceState) (assetSymbol : String) : ServiceState :=
  { s with priceCache := mapDelete s.priceCache assetSymbol,
           ohlcCache := mapDelete s.ohlcCache assetSymbol,
           lastPriceUpdate := mapDelete s.lastPriceUpdate assetSymbol,
           lastOHLCUpdate := mapDelete s.lastOHLCUpdate assetSymbol }

/-! ### One OHLC subscription's lifecycle (firebaseService.ts lines 96–155)

Event-level semantics of a single `subscribeToOHLC` subscription: feed
notifications run the snapshot transform and call the debounced wrapper
(installing/replacing its pending timer); the unsubscribe closure
detaches the listener and deletes the cache entries, but contains no
`clearTimeout` — the pending debounce timer is left untouched.  Before
each event, and once at the end of the trace, any due debounce timer runs
the `debouncedCallback` body; each delivery to the consumer callback is
recorded together with whether the subscription had already been
disposed. -/

structure Delivery where
  time : Nat
  afterDispose : Bool
  data : List OHLCData
  deriving DecidableEq

structure OhlcSubState where
  listenerAttached : Bool
  disposed : Bool
  debTimeout : Option (Nat × List OHLCData)
  chan : OHLCChannelState
  deriving DecidableEq

def ohlcSubInit : OhlcSubState := ⟨true, false, none, ⟨none, none⟩⟩

/-- Run the pending debounce timer if it is due at instant `t`: the
`debouncedCallback` body executes at the timer's fire time with the
captured arguments. -/
def ohlcFireDue (st : OhlcSubState) (t : Nat) : OhlcSubState × List Delivery :=
  match st.debTimeout with
  | some (s, args) =>
      if timerFired s OHLC_UPDATE_DEBOUNCE t then
        let now := s + OHLC_UPDATE_DEBOUNCE
        let body := ohlcCallbackBody st.chan now args
        ({ st with debTimeout := none, chan := body.1 },
         match body.2 with
         | some d => [⟨now, st.disposed, d⟩]
         | none => [])
      else (st, [])
  | none => (st, [])

inductive OhlcEvent where
  | notify (t : Nat) (raw : List OHLCData)
  | dispose (t : Nat)
  deriving DecidableEq

def ohlcSubStep (st : OhlcSubState) (ev : OhlcEvent) : OhlcSubState × List Delivery :=
  match ev with
  | .notify t raw =>
      let f := ohlcFireDue st t
      if f.1.listenerAttached && !raw.isEmpty then
        ({ f.1 with debTimeout := some (t, ohlcSnapshotTransform raw) }, f.2)
      else f
  | .dispose t =>
      let f := ohlcFireDue st t
      ({ f.1 with listenerAttached := false, disposed := true,
                  chan := ⟨none, none⟩ }, f.2)

def ohlcSubRunAux (st : OhlcSubState) : List OhlcEvent → Nat → OhlcSubState × List Delivery
  | [], endT => ohlcFireDue st endT
  | ev :: rest, endT =>
      let c := ohlcSubStep st ev
      let r := ohlcSubRunAux c.1 rest endT
      (r.1, c.2 ++ r.2)

/-- Run one OHLC subscription over an event trace, letting any timer still
pending fire by the final instant `endT`. -/
def ohlcSubRun (evts : List OhlcEvent) (endT : Nat) : OhlcSubState × List Delivery :=
  ohlcSubRunAux ohlcSubInit evts endT

/-! ### Sample values for concrete witnesses and counterexamples -/

/-- Concrete candle with timestamp `i`, used in witnesses and counterexamples. -/
def sampleCandle (i : Nat) : OHLCData := ⟨i, "", 1, 1, 1, 1, 1⟩

/-- Concrete price tick with price `p`, used in witnesses and counterexamples. -/
def samplePrice (p : ℚ) : FirebasePriceData := ⟨p, 0, "", "", 0, ""⟩

/-! ## Theorems -/

/-- Running the throttled wrapper over a concatenation of traces processes
the second trace from the state left by the first. -/
lemma throttleRunSt_append (limit : Nat) (st : ThrottleState) (evts evts' : List (Nat × α)) :
    throttleRunSt limit st (evts ++ evts') =
      ((throttleRunSt limit (throttleRunSt limit st evts).1 evts').1,
       (throttleRunSt limit st evts).2 ++
         (throttleRunSt limit (throttleRunSt limit st evts).1 evts').2) := by
  induction evts generalizing st with
  | nil => simp [throttleRunSt]
  | cons e rest ih =>
      obtain ⟨t, a⟩ := e
      simp [throttleRunSt, ih]

/-- With a zero limit, the reset timer scheduled at `w` has fired before any
strictly later call, so a strictly increasing call trace passes through
entirely. -/
lemma throttleRunSt_zero_chain (evts : List (Nat × α)) : ∀ (w : Nat),
    List.Chain' (fun p q : Nat × α => p.1 < q.1) evts →
    (∀ p ∈ evts.head?, w < p.1) →
    (throttleRunSt 0 ⟨true, some w⟩ evts).2 = evts.map Prod.snd := by
  induction evts with
  | nil => intro w _ _; rfl
  | cons e rest ih =>
      obtain ⟨t, a⟩ := e
      intro w hch hw
      have hwt : w < t := hw (t, a) rfl
      rw [List.chain'_cons'] at hch
      have hfired : timerFired w 0 t = true := by
        simp [timerFired]; omega
      simp [throttleRunSt, throttleCall, throttleFireDue, hfired]
      exact ih t hch.2 hch.1

/-- Claim C3, counterexample.  With a 500 ms throttle, the call at t=100
arrives inside the window opened at t=0; the claim says its argument `2`
(the most recent call of the burst) is invoked once at the end of the
window, but the leading-edge-only throttle never invokes it — not at
window end, and not even after a later call at t=600 reopens the window. -/
theorem throttle_burst_tail_lost :
    throttleRun 500 [(0, 1), (100, 2), (600, 3)] = [1, 3]
    ∧ (2 : Nat) ∉ throttleRun 500 [(0, 1), (100, 2), (600, 3)] := by
  decide

/-- Claim C3, amended.  The `throttle` wrapper is leading-edge-only, not
leading-plus-trailing: the complete invocation sequence of any trace
ending in a call is the previous invocations plus at most that call's own
arguments, delivered immediately (so no window-end flush ever appends a
dropped call's arguments), and a call is dropped exactly when it arrives
while the throttle window is still active. -/
theorem throttle_leading_edge_only (limit : Nat) (st : ThrottleState)
    (evts : List (Nat × α)) (t : Nat) (a : α) :
    (throttleRunSt limit st (evts ++ [(t, a)])).2 =
      (throttleRunSt limit st evts).2 ++
        ((throttleCall limit (throttleRunSt limit st evts).1 t a).2).toList
    ∧ (throttleCall limit st t a).2 =
        (if (throttleFireDue limit st t).inThrottle then none else some a) := by
  constructor
  · rw [throttleRunSt_append]
    simp [throttleRunSt]
  · unfold throttleCall
    split <;> simp_all

/-- Claim C9, counterexample.  A zero throttle interval is not a
pass-through: of two calls in the same instant, the second is dropped
(its argument `2` is never invoked), because the zero-delay reset timer
only runs strictly after the instant that scheduled it; and a zero-wait
debounce invokes nothing during the call itself (the invocation is
deferred to the timer), so it is not immediate either. -/
theorem zero_interval_not_passthrough :
    throttleRun 0 [(0, 1), (0, 2)] = [1]
    ∧ (2 : Nat) ∉ throttleRun 0 [(0, 1), (0, 2)]
    ∧ (debounceRun 0 [(0, 5)]).1 = [] := by
  decide

/-- Claim C9, amended.  With a zero (or negative, which `setTimeout`
clamps to zero) interval: the throttle passes every call through
immediately as long as call instants strictly increase, but a further
call in the same instant as the window-opening call is dropped; and a
zero-wait debounce never invokes during the call — the last call's
arguments are left pending on a timer that can only run at a strictly
later instant. -/
theorem zero_interval_behavior (α : Type) :
    (∀ evts : List (Nat × α), List.Chain' (fun p q => p.1 < q.1) evts →
       throttleRun 0 evts = evts.map Prod.snd)
    ∧ (∀ (t : Nat) (a b : α), throttleRun 0 [(t, a), (t, b)] = [a])
    ∧ (∀ (t : Nat) (a : α), debounceRun 0 [(t, a)] = ([], some (t, a))) := by
  refine ⟨?_, ?_, ?_⟩
  · intro evts hch
    cases evts with
    | nil => rfl
    | cons e rest =>
        obtain ⟨t, a⟩ := e
        rw [List.chain'_cons'] at hch
        simp [throttleRun, throttleRunSt, throttleCall, throttleFireDue, throttleInit]
        exact throttleRunSt_zero_chain rest t hch.2 hch.1
  · intro t a b
    have hnot : timerFired t 0 t = false := by
      simp [timerFired]
    simp [throttleRun, throttleRunSt, throttleCall, throttleFireDue, throttleInit, hnot]
  · intro t a
    rfl

/-- Witness for the amended C9 theorem at a concrete strictly increasing
trace. -/
theorem zero_interval_behavior_w :
    throttleRun 0 [(0, 1), (1, 2)] = [1, 2] :=
  (zero_interval_behavior Nat).1 [(0, 1), (1, 2)] (by simp)

/-- Claim C4.  In the price change filter (the `throttledCallback` body of
`subscribeToPrice`): a notification whose price differs from the cached
price by at least `MIN_PRICE_CHANGE` is always delivered — the cache is
updated and the consumer callback invoked — regardless of the elapsed
time; and a suppressed notification implies both that the elapsed time
since the last delivery is below `CACHE_DURATION` and that the price
change is below `MIN_PRICE_CHANGE`. -/
theorem price_change_bypass (st : PriceChannelState) (now : Nat) (data : FirebasePriceData) :
    (∀ c, st.priceCache = some c → MIN_PRICE_CHANGE ≤ |data.price - c.price| →
       priceCallbackBody st now data = (⟨some data, some now⟩, some data))
    ∧ ((priceCallbackBody st now data).2 = none →
        ∃ c, st.priceCache = some c ∧ now - st.lastPriceUpdate.getD 0 < CACHE_DURATION ∧
          |data.price - c.price| < MIN_PRICE_CHANGE) := by
  obtain ⟨pc, lu⟩ := st
  cases pc with
  | none =>
      refine ⟨fun c hc => ?_, fun hnone => ?_⟩
      · simp at hc
      · simp [priceCallbackBody] at hnone
  | some cached =>
      refine ⟨fun c hc hle => ?_, fun hnone => ?_⟩
      · obtain rfl : c = cached := by simpa using hc.symm
        have hB : decide (|data.price - c.price| < MIN_PRICE_CHANGE) = false :=
          decide_eq_false (not_lt.mpr hle)
        simp [priceCallbackBody, hB]
      · refine ⟨cached, rfl, ?_⟩
        cases hA : decide (now - lu.getD 0 < CACHE_DURATION) with
        | false => simp [priceCallbackBody, hA] at hnone
        | true =>
            cases hB : decide (|data.price - cached.price| < MIN_PRICE_CHANGE) with
            | false => simp [priceCallbackBody, hA, hB] at hnone
            | true => exact ⟨by simpa using hA, by simpa using hB⟩

/-- Witness for C4: a 0.1 move is delivered 100 ms after the last delivery
(inside the cache window), and a 0.0005 move 100 ms after the last
delivery is suppressed with both conditions holding. -/
theorem price_change_bypass_w :
    priceCallbackBody ⟨some (samplePrice 1), some 100⟩ 200 (samplePrice (11/10)) =
      (⟨some (samplePrice (11/10)), some 200⟩, some (samplePrice (11/10)))
    ∧ ∃ c, (some (samplePrice 1) : Option FirebasePriceData) = some c ∧
        200 - (some 100 : Option Nat).getD 0 < CACHE_DURATION ∧
        |(samplePrice (1 + 1/2000)).price - c.price| < MIN_PRICE_CHANGE :=
  ⟨(price_change_bypass ⟨some (samplePrice 1), some 100⟩ 200 (samplePrice (11/10))).1
      (samplePrice 1)
      rfl
      (by
        simp only [samplePrice, MIN_PRICE_CHANGE]
        rw [show (11 : ℚ)/10 - 1 = 1/10 by norm_num, abs_of_nonneg (by norm_num)]
        norm_num),
   (price_change_bypass ⟨some (samplePrice 1), some 100⟩ 200 (samplePrice (1 + 1/2000))).2
      (by
        norm_num [priceCallbackBody, samplePrice, MIN_PRICE_CHANGE, CACHE_DURATION]
        rw [show |(1 : ℚ)/2000| = 1/2000 from abs_of_pos (by norm_num)]
        norm_num)⟩

/-- Claim C10.  Cache coherence of the price pipeline: whenever the
`throttledCallback` body delivers a value to the consumer callback, the
per-asset price cache holds exactly that value and the last-update
timestamp is the delivery time; when nothing is delivered, the cache is
left untouched — it never absorbs a filtered-out value and never lags
behind the last delivered value. -/
theorem price_cache_coherence (st : PriceChannelState) (now : Nat) (data : FirebasePriceData) :
    (∀ d, (priceCallbackBody st now data).2 = some d →
       (priceCallbackBody st now data).1 = ⟨some d, some now⟩)
    ∧ ((priceCallbackBody st now data).2 = none → (priceCallbackBody st now data).1 = st) := by
  obtain ⟨pc, lu⟩ := st
  cases pc with
  | none =>
      refine ⟨fun d hd => ?_, fun hnone => ?_⟩
      · obtain rfl : data = d := by simpa [priceCallbackBody] using hd
        rfl
      · simp [priceCallbackBody] at hnone
  | some cached =>
      cases hA : decide (now - lu.getD 0 < CACHE_DURATION) with
      | false =>
          refine ⟨fun d hd => ?_, fun hnone => ?_⟩
          · obtain rfl : data = d := by simpa [priceCallbackBody, hA] using hd
            simp [priceCallbackBody, hA]
          · simp [priceCallbackBody, hA] at hnone
      | true =>
          cases hB : decide (|data.price - cached.price| < MIN_PRICE_CHANGE) with
          | false =>
              refine ⟨fun d hd => ?_, fun hnone => ?_⟩
              · obtain rfl : data = d := by simpa [priceCallbackBody, hA, hB] using hd
                simp [priceCallbackBody, hA, hB]
              · simp [priceCallbackBody, hA, hB] at hnone
          | true =>
              refine ⟨fun d hd => ?_, fun hnone => ?_⟩
              · simp [priceCallbackBody, hA, hB] at hd
              · simp [priceCallbackBody, hA, hB]

/-- Witness for C10 at a delivering input (empty cache) and a suppressed
input (same price 50 ms later). -/
theorem price_cache_coherence_w :
    (priceCallbackBody ⟨none, none⟩ 100 (samplePrice 1)).1 = ⟨some (samplePrice 1), some 100⟩
    ∧ (priceCallbackBody ⟨some (samplePrice 1), some 100⟩ 150 (samplePrice 1)).1 =
        ⟨some (samplePrice 1), some 100⟩ :=
  ⟨(price_cache_coherence ⟨none, none⟩ 100 (samplePrice 1)).1 (samplePrice 1) rfl,
   (price_cache_coherence ⟨some (samplePrice 1), some 100⟩ 150 (samplePrice 1)).2
      (by norm_num [priceCallbackBody, samplePrice, MIN_PRICE_CHANGE, CACHE_DURATION])⟩

/-- Claim C5.  In the candle change filter (the `debouncedCallback` body of
`subscribeToOHLC`): a snapshot whose series has the same length as the
cached series and whose last element carries the same `(timestamp, close)`
pair as the cached last element is suppressed — the consumer callback is
not invoked and the cached state is left unchanged (via either the
time-based skip or the content skip). -/
theorem ohlc_identical_snapshot_suppressed (st : OHLCChannelState) (now : Nat)
    (data cached : List OHLCData) (lc ln : OHLCData)
    (hc : st.ohlcCache = some cached) (hlen : cached.length = data.length)
    (hlc : cached.getLast? = some lc) (hln : data.getLast? = some ln)
    (hts : lc.timestamp = ln.timestamp) (hcl : lc.close = ln.close) :
    ohlcCallbackBody st now data = (st, none) := by
  have hskip : (decide (cached.length = data.length) &&
      (decide (cached.getLast?.map OHLCData.timestamp = data.getLast?.map OHLCData.timestamp) &&
       decide (cached.getLast?.map OHLCData.close = data.getLast?.map OHLCData.close))) = true := by
    simp [hlen, hlc, hln, hts, hcl]
  simp only [ohlcCallbackBody, hc, hskip, if_true, ite_self]

/-- Witness for C5: re-delivering the cached one-candle series 5 s later
(outside the time-skip window, so the content check is what suppresses)
invokes nothing and leaves the state unchanged. -/
theorem ohlc_identical_snapshot_suppressed_w :
    ohlcCallbackBody ⟨some [sampleCandle 3], some 0⟩ 5000 [sampleCandle 3] =
      (⟨some [sampleCandle 3], some 0⟩, none) :=
  ohlc_identical_snapshot_suppressed ⟨some [sampleCandle 3], some 0⟩ 5000
    [sampleCandle 3] [sampleCandle 3] (sampleCandle 3) (sampleCandle 3)
    rfl rfl rfl rfl rfl rfl

/-- Claim C6.  The snapshot ingest transform of `subscribeToOHLC` yields a
series of length `min M 500` (so exactly 500 when `M > 500`, never more
than 500), equal to the last 500 elements of the input sorted ascending by
timestamp, equal to the whole sorted input when `M ≤ 500`, and sorted
ascending by timestamp. -/
theorem ohlc_ingest_sorted_bounded (raw : List OHLCData) :
    (ohlcSnapshotTransform raw).length = min raw.length 500
    ∧ ohlcSnapshotTransform raw = lastN 500 (sortByTimestamp raw)
    ∧ (raw.length ≤ 500 → ohlcSnapshotTransform raw = sortByTimestamp raw)
    ∧ (ohlcSnapshotTransform raw).Pairwise (fun a b => a.timestamp ≤ b.timestamp) := by
  have hlen : (sortByTimestamp raw).length = raw.length := List.length_mergeSort raw
  have htrans : ∀ a b c : OHLCData, tsLEb a b = true → tsLEb b c = true → tsLEb a c = true := by
    intro a b c hab hbc
    simp only [tsLEb, decide_eq_true_eq] at *
    omega
  have htotal : ∀ a b : OHLCData, (tsLEb a b || tsLEb b a) = true := by
    intro a b
    simp only [tsLEb, Bool.or_eq_true, decide_eq_true_eq]
    omega
  have hsorted : (sortByTimestamp raw).Pairwise (fun a b => tsLEb a b = true) :=
    List.sorted_mergeSort htrans htotal raw
  refine ⟨?_, ?_, ?_, ?_⟩
  · simp only [ohlcSnapshotTransform, sliceNeg]
    rw [if_neg (by omega), List.length_drop, hlen]
    omega
  · simp only [ohlcSnapshotTransform, sliceNeg, lastN]
    rw [if_neg (by omega)]
  · intro h
    simp only [ohlcSnapshotTransform, sliceNeg]
    rw [if_neg (by omega), show (sortByTimestamp raw).length - 500 = 0 by omega,
       List.drop_zero]
  · have hsub : (ohlcSnapshotTransform raw).Sublist (sortByTimestamp raw) := by
      simp only [ohlcSnapshotTransform, sliceNeg]
      rw [if_neg (by omega)]
      exact List.drop_sublist _ _
    exact (List.Pairwise.sublist hsub hsorted).imp
      (fun h => by simpa [tsLEb] using h)

/-- Witness for C6 at a concrete unsorted two-candle snapshot (discharging
the `M ≤ 500` hypothesis of the third conjunct). -/
theorem ohlc_ingest_sorted_bounded_w :
    ([sampleCandle 2, sampleCandle 1] : List OHLCData).length ≤ 500
    ∧ ohlcSnapshotTransform [sampleCandle 2, sampleCandle 1] =
        sortByTimestamp [sampleCandle 2, sampleCandle 1] :=
  ⟨by simp, (ohlc_ingest_sorted_bounded [sampleCandle 2, sampleCandle 1]).2.2.1 (by simp)⟩

/-- Claim C7, counterexample.  With `limit = 0` and a one-candle cache the
guard `cached.length >= limit` passes and `cached.slice(-0)` is
`cached.slice(0)`, the whole series — not the last 0 entries, which would
be the empty series. -/
theorem getHistoricalOHLC_zero_limit_quirk :
    getHistoricalOHLC_sync (some [sampleCandle 1]) 0 =
      (some [sampleCandle 1], .fromCache [sampleCandle 1])
    ∧ lastN 0 [sampleCandle 1] = ([] : List OHLCData)
    ∧ ([sampleCandle 1] : List OHLCData) ≠ [] :=
  ⟨rfl, rfl, by simp⟩

/-- Claim C7, amended.  For every `limit ≥ 1`, when the cached series holds
at least `limit` candles, `getHistoricalOHLC` returns the last `limit`
cached entries synchronously from the cache — no feed read — and leaves
the cache unchanged. -/
theorem getHistoricalOHLC_cache_fast_path (cache : Option (List OHLCData))
    (cached : List OHLCData) (limit : Nat) (hc : cache = some cached)
    (h1 : 1 ≤ limit) (hlen : limit ≤ cached.length) :
    getHistoricalOHLC_sync cache limit = (cache, .fromCache (lastN limit cached)) := by
  subst hc
  simp only [getHistoricalOHLC_sync, sliceNeg, lastN]
  rw [if_pos hlen, if_neg (by omega)]

/-- Witness for the amended C7 theorem: a two-candle cache served with
`limit = 1`. -/
theorem getHistoricalOHLC_cache_fast_path_w :
    getHistoricalOHLC_sync (some [sampleCandle 1, sampleCandle 2]) 1 =
      (some [sampleCandle 1, sampleCandle 2],
       .fromCache (lastN 1 [sampleCandle 1, sampleCandle 2])) :=
  getHistoricalOHLC_cache_fast_path (some [sampleCandle 1, sampleCandle 2])
    [sampleCandle 1, sampleCandle 2] 1 rfl (by decide) (by simp)

/-- Claim C8.  When the 5-second timer of `getHistoricalOHLC` fires before
the one-time read resolves, the promise is rejected with the timeout
error but the `onValue` listener is still attached — the timeout branch
contains no `off()`, so a dangling feed listener is left behind,
contradicting the claim; the resolve-in-time half does hold: a snapshot
clears the timeout, detaches the listener, and a later timer cannot
override the resolved outcome. -/
theorem getHistoricalOHLC_timeout_dangling_listener :
    fetchTimeoutFires fetchInit =
      { listenerAttached := true, timeoutPending := false, outcome := some .timedOut }
    ∧ fetchSnapshotArrives fetchInit 100 (some []) =
      { listenerAttached := false, timeoutPending := false, outcome := some (.resolved []) }
    ∧ fetchTimeoutFires (fetchSnapshotArrives fetchInit 100 (some [])) =
      { listenerAttached := false, timeoutPending := false, outcome := some (.resolved []) } := by
  have h2 : fetchSnapshotArrives fetchInit 100 (some []) =
      { listenerAttached := false, timeoutPending := false, outcome := some (.resolved []) } := by
    simp [fetchSnapshotArrives, fetchInit, sortByTimestamp, sliceNeg]
  exact ⟨rfl, h2, by rw [h2]; rfl⟩

/-- Claim C2, counter-demonstration.  Two successive `subscribeToPrice`
calls for the same asset open two concurrent feed-side registrations on
the same price path: the code never checks `this.listeners` nor calls
`off` before registering, so the claimed at-most-one-listener-per-key
invariant does not hold. -/
theorem subscribeToPrice_duplicate_listeners :
    ((subscribeToPrice (subscribeToPrice serviceInit "BTC") "BTC").activeListeners.filter
      (fun p => p.1 = pricePath "BTC")).length = 2 := by
  simp [subscribeToPrice, serviceInit, List.filter]

set_option maxRecDepth 8000 in
/-- Claim C1, counter-demonstration.  One OHLC subscription: a feed
snapshot at t=0 arms the 1000 ms debounce timer; the unsubscribe closure
runs at t=500 (detaching the listener and clearing the caches, but not
the timer); the pending timer then fires at t=1000 and the
`debouncedCallback` body — finding the caches cleared — delivers the
snapshot to the consumer callback after disposal (`afterDispose = true`). -/
theorem ohlc_unsubscribe_leaves_pending_debounce :
    (ohlcSubRun [.notify 0 [sampleCandle 1], .dispose 500] 2000).2 =
      [⟨1000, true, [sampleCandle 1]⟩] := by
  simp +decide [ohlcSubRun, ohlcSubRunAux, ohlcSubStep, ohlcFireDue, ohlcCallbackBody,
    ohlcSnapshotTransform, sortByTimestamp, sliceNeg, timerFired, OHLC_UPDATE_DEBOUNCE,
    ohlcSubInit]
